import Mathlib

/- Shallow embedding of pkg/yqlib/printer.go: the output-format registry
   (PrinterOutputFormat, Formats, MatchesName, OutputFormatFromString,
   GetAvailableOutputFormatString) and the results printer (PrintResults,
   printNode, removeLastEOL), with the encoder, the writer provider and the
   explode operation modelled as abstract collaborators supplied in an
   environment record. Byte streams are lists of natural numbers (byte
   values); everything the printer sends to a sink is recorded as an event
   trace so that counting separator emissions and reconstructing per-sink
   byte streams is possible. -/

namespace YqPrinter

deriving instance DecidableEq for Except

/-- Byte sequences: Go []byte modelled as a list of byte values. -/
abbrev Bytes := List Nat

/-- The slice of CandidateNode the printer reads: type tag, scalar value,
leading content (comments / front matter), document index (Go uint) and
file index (Go int). -/
structure CandidateNode where
  Tag : String
  Value : String
  LeadingContent : String
  document : Nat
  fileIndex : Int
deriving DecidableEq

/-- CandidateNode.GetDocument accessor. -/
def CandidateNode.GetDocument (n : CandidateNode) : Nat := n.document

/-- CandidateNode.GetFileIndex accessor. -/
def CandidateNode.GetFileIndex (n : CandidateNode) : Int := n.fileIndex

/-- Tags naming the encoder factories registered in printer.go; the factory
bodies (NewYamlEncoder etc.) are outside this file's scope, only their
identity matters to the registry. -/
inductive EncoderKind
  | yaml | json | properties | csvComma | csvTab | xml | toml | shellVariables | lua
deriving DecidableEq

/-- PrinterOutputFormat from printer.go. EncoderFactory is `none` for the
reserved slots whose Go factory function pointer is nil. -/
structure PrinterOutputFormat where
  FormalName : String
  Names : List String
  EncoderFactory : Option EncoderKind
deriving DecidableEq

def YamlOutputFormat : PrinterOutputFormat := ⟨"yaml", ["y", "yml"], some EncoderKind.yaml⟩
def JSONOutputFormat : PrinterOutputFormat := ⟨"json", ["j"], some EncoderKind.json⟩
def PropsOutputFormat : PrinterOutputFormat := ⟨"props", ["p", "properties"], some EncoderKind.properties⟩
def CSVOutputFormat : PrinterOutputFormat := ⟨"csv", ["c"], some EncoderKind.csvComma⟩
def TSVOutputFormat : PrinterOutputFormat := ⟨"tsv", ["t"], some EncoderKind.csvTab⟩
def XMLOutputFormat : PrinterOutputFormat := ⟨"xml", ["x"], some EncoderKind.xml⟩

/-- Reserved slot: var Base64OutputFormat = &PrinterOutputFormat{} (zero value). -/
def Base64OutputFormat : PrinterOutputFormat := ⟨"", [], none⟩
/-- Reserved slot: var UriOutputFormat = &PrinterOutputFormat{}. -/
def UriOutputFormat : PrinterOutputFormat := ⟨"", [], none⟩
/-- Reserved slot: var ShOutputFormat = &PrinterOutputFormat{}. -/
def ShOutputFormat : PrinterOutputFormat := ⟨"", [], none⟩

def TomlOutputFormat : PrinterOutputFormat := ⟨"toml", [], some EncoderKind.toml⟩
def ShellVariablesOutputFormat : PrinterOutputFormat := ⟨"shell", ["s", "sh"], some EncoderKind.shellVariables⟩
def LuaOutputFormat : PrinterOutputFormat := ⟨"lua", ["l"], some EncoderKind.lua⟩

/-- The registry list, in the declaration order of printer.go. -/
def Formats : List PrinterOutputFormat :=
  [YamlOutputFormat, JSONOutputFormat, PropsOutputFormat, CSVOutputFormat,
   TSVOutputFormat, XMLOutputFormat, Base64OutputFormat, UriOutputFormat,
   ShOutputFormat, TomlOutputFormat, ShellVariablesOutputFormat, LuaOutputFormat]

/-- MatchesName: exact comparison against the formal name, then against each
registered alias in order. -/
def PrinterOutputFormat.MatchesName (f : PrinterOutputFormat) (name : String) : Bool :=
  f.FormalName == name || f.Names.contains name

/-- strings.Join: empty for the empty list, otherwise the elements
interleaved with the separator. -/
def stringsJoin (elems : List String) (sep : String) : String :=
  match elems with
  | [] => ""
  | x :: xs => xs.foldl (fun acc e => acc ++ sep ++ e) x

/-- The name list built by GetAvailableOutputFormatString: for each format,
the formal name when non-empty, then the first alias when one exists. -/
def availableNames : List String :=
  (Formats.map (fun f =>
    (if f.FormalName ≠ "" then [f.FormalName] else []) ++
    (if f.Names.length ≥ 1 then [f.Names.headD ""] else []))).flatten

/-- GetAvailableOutputFormatString from printer.go. -/
def GetAvailableOutputFormatString : String := stringsJoin availableNames "|"

/-- A single-quote character as a string (kept out of string literals). -/
def squote : String := ⟨[Char.ofNat 39]⟩

/-- The unknown-format error text of OutputFormatFromString. -/
def unknownFormatError (format : String) : String :=
  "unknown format " ++ squote ++ format ++ squote ++ " please use [" ++
    GetAvailableOutputFormatString ++ "]"

/-- OutputFormatFromString: scan Formats in order, return the first format
matching the queried name, otherwise the unknown-format error. -/
def OutputFormatFromString (format : String) : Except String PrinterOutputFormat :=
  match Formats.find? (fun f => f.MatchesName format) with
  | some f => Except.ok f
  | none => Except.error (unknownFormatError format)

/-- The Encoder collaborator interface: each operation yields the bytes it
writes to its destination, or an error. -/
structure Encoder where
  canHandleAliases : Bool
  encode : CandidateNode → Except String Bytes
  printDocumentSeparator : Except String Bytes
  printLeadingContent : String → Except String Bytes

/-- The collaborators of a resultsPrinter: the encoder, the writer provider
(sinks are identified by number), and the explode evaluator operation used
when the encoder cannot handle aliases. -/
structure PrinterEnv where
  encoder : Encoder
  getWriter : Option CandidateNode → Except String Nat
  explode : List CandidateNode → Except String (List CandidateNode)

/-- The mutable fields of resultsPrinter. The appendix reader holds its
remaining bytes; piping it leaves `some []` (an exhausted reader). -/
structure PrinterState where
  firstTimePrinting : Bool
  previousDocIndex : Nat
  previousFileIndex : Int
  printedMatches : Bool
  nulSepOutput : Bool
  appendixReader : Option Bytes
deriving DecidableEq

/-- Observable actions of a PrintResults call: obtaining a sink from the
writer provider, separator bytes sent to a sink, and bytes written to a
sink. -/
inductive Ev
  | getWriter : Option CandidateNode → Nat → Ev
  | sep : Nat → Bytes → Ev
  | write : Nat → Bytes → Ev
deriving DecidableEq

/-- Whether an event is a write of payload bytes to a real sink. -/
def Ev.isWrite : Ev → Bool
  | .write _ _ => true
  | _ => false

/-- Whether an event is a document-separator emission. -/
def Ev.isSep : Ev → Bool
  | .sep _ _ => true
  | _ => false

/-- Exact character-list matching used to model the anchored literal regex
check on leading content. -/
def isPrefixList : List Char → List Char → Bool
  | [], _ => true
  | _ :: _, [] => false
  | a :: as, b :: bs => a == b && isPrefixList as bs

/-- commentStartsWithSeparator: the anchored regexp match of the literal
sentinel at the start of the leading content. -/
def commentStartsWithSeparator (leadingContent : String) : Bool :=
  isPrefixList "$yqDocSeparator$".data leadingContent.data

/-- The separator condition of PrintResults line 189: the tracked document
or file index differs and the leading content does not already start with
the sentinel. -/
def boundary (prevDoc : Nat) (prevFile : Int) (n : CandidateNode) : Bool :=
  (prevDoc != n.GetDocument || prevFile != n.GetFileIndex) &&
    !(commentStartsWithSeparator n.LeadingContent)

/-- The separator condition instantiated at the printer's tracked state. -/
def needsSeparator (s : PrinterState) (n : CandidateNode) : Bool :=
  boundary s.previousDocIndex s.previousFileIndex n

/-- The condition under which printNode marks something as printed
(printer.go line 136): not a null tag, and not a boolean false. -/
def countsAsPrinted (n : CandidateNode) : Bool :=
  n.Tag != "!!null" && (n.Tag != "!!bool" || n.Value != "false")

/-- removeLastEOL: drop one trailing CRLF pair, or else one trailing CR or
LF, from the buffer (indices n-2 and n-1 of the Go code are the
second-to-last and last byte). -/
def removeLastEOL (b : Bytes) : Bytes :=
  if 2 ≤ b.length ∧ b.getD (b.length - 2) 0 = 13 ∧ b.getD (b.length - 1) 0 = 10 then
    b.take (b.length - 2)
  else if 1 ≤ b.length ∧ (b.getD (b.length - 1) 0 = 13 ∨ b.getD (b.length - 1) 0 = 10) then
    b.take (b.length - 1)
  else b

/-- The NUL-conflict error text of PrintResults (its apostrophe is built
with squote). -/
def nulSepError : String :=
  "Can" ++ squote ++ "t serialize value because it contains NUL char and you are using NUL separated output"

/-- Error standing for the Go nil-pointer panic that Front().Value would
raise if the exploded sequence were empty on a first-time call. -/
def nilPanic : String := "runtime error: invalid memory address or nil pointer dereference"

/-- One iteration of the PrintResults loop (printer.go lines 176-230):
obtain a sink, emit the separator if a boundary was crossed, emit leading
content and the encoded node (buffered in NUL mode), post-process the NUL
record, update the tracked document index. Returns the error outcome, the
updated state (mutations before an error persist, as for the Go receiver)
and the emitted events. -/
def processNode (env : PrinterEnv) (s : PrinterState) (n : CandidateNode) :
    Option String × PrinterState × List Ev :=
  match env.getWriter (some n) with
  | .error e => (some e, s, [])
  | .ok w =>
    match (if needsSeparator s n then
             match env.encoder.printDocumentSeparator with
             | .error e => Except.error e
             | .ok sb => Except.ok [Ev.sep w sb]
           else Except.ok [] : Except String (List Ev)) with
    | .error e => (some e, s, [Ev.getWriter (some n) w])
    | .ok sevs =>
      match env.encoder.printLeadingContent n.LeadingContent with
      | .error e => (some e, s, Ev.getWriter (some n) w :: sevs)
      | .ok lb =>
        match env.encoder.encode n with
        | .error e =>
          (some e, { s with printedMatches := s.printedMatches || countsAsPrinted n },
            Ev.getWriter (some n) w :: sevs ++
              (if s.nulSepOutput then [] else [Ev.write w lb]))
        | .ok nb =>
          if s.nulSepOutput then
            if (removeLastEOL (lb ++ nb)).contains 0 then
              (some nulSepError,
                { s with printedMatches := s.printedMatches || countsAsPrinted n },
                Ev.getWriter (some n) w :: sevs)
            else
              (none,
                { s with printedMatches := s.printedMatches || countsAsPrinted n,
                         previousDocIndex := n.GetDocument },
                Ev.getWriter (some n) w :: sevs ++
                  [Ev.write w (removeLastEOL (lb ++ nb)), Ev.write w [0]])
          else
            (none,
              { s with printedMatches := s.printedMatches || countsAsPrinted n,
                       previousDocIndex := n.GetDocument },
              Ev.getWriter (some n) w :: sevs ++ [Ev.write w lb, Ev.write w nb])

/-- The PrintResults loop over the (possibly exploded) match sequence; the
first error aborts the remaining iterations. -/
def runNodes (env : PrinterEnv) : PrinterState → List CandidateNode →
    Option String × PrinterState × List Ev
  | s, [] => (none, s, [])
  | s, n :: rest =>
    match processNode env s n with
    | (some e, s1, evs1) => (some e, s1, evs1)
    | (none, s1, evs1) =>
      match runNodes env s1 rest with
      | (r, s2, evs2) => (r, s2, evs1 ++ evs2)

/-- The appendix block after the loop (printer.go lines 233-248): when a
reader is registered, obtain the no-node sink and copy the remaining bytes,
leaving the reader exhausted. -/
def pipeAppendix (env : PrinterEnv) (s : PrinterState) (evs : List Ev) :
    Option String × PrinterState × List Ev :=
  match s.appendixReader with
  | none => (none, s, evs)
  | some bs =>
    match env.getWriter none with
    | .error e => (some e, s, evs)
    | .ok w =>
      (none, { s with appendixReader := some [] },
        evs ++ [Ev.getWriter none w, Ev.write w bs])

/-- The alias preprocessing of PrintResults lines 159-167: when the encoder
cannot handle aliases the whole sequence is replaced by the result of the
explode operation. -/
def effectiveNodes (env : PrinterEnv) (ns : List CandidateNode) :
    Except String (List CandidateNode) :=
  if env.encoder.canHandleAliases then Except.ok ns else env.explode ns

/-- The loop followed by the appendix block. -/
def runAfterPrime (env : PrinterEnv) (s : PrinterState) (ms : List CandidateNode) :
    Option String × PrinterState × List Ev :=
  match runNodes env s ms with
  | (some e, s1, evs1) => (some e, s1, evs1)
  | (none, s1, evs1) => pipeAppendix env s1 evs1

/-- PrintResults: return immediately on an empty sequence; otherwise explode
if needed, prime the tracked indices from the front node on the first call
ever, run the loop, then pipe the appendix. -/
def printResults (env : PrinterEnv) (s : PrinterState) (ns : List CandidateNode) :
    Option String × PrinterState × List Ev :=
  if ns.length = 0 then (none, s, [])
  else
    match effectiveNodes env ns with
    | .error e => (some e, s, [])
    | .ok ms =>
      if s.firstTimePrinting then
        match ms with
        | [] => (some nilPanic, s, [])
        | m :: tl =>
          runAfterPrime env
            { s with previousDocIndex := m.GetDocument,
                     previousFileIndex := m.GetFileIndex,
                     firstTimePrinting := false } (m :: tl)
      else
        runAfterPrime env s ms

/-- Bytes an event contributes to the stream of sink w. -/
def Ev.sinkContrib (w : Nat) : Ev → Bytes
  | .sep w' b => if w' = w then b else []
  | .write w' b => if w' = w then b else []
  | .getWriter _ _ => []

/-- The byte stream a given sink receives over an event trace. -/
def sinkBytes (w : Nat) (evs : List Ev) : Bytes :=
  (evs.map (Ev.sinkContrib w)).flatten

/-- The number of document-separator emissions in a trace. -/
def sepEvents (evs : List Ev) : Nat := evs.countP Ev.isSep

/-- The nodes for which a sink was requested, in request order. -/
def nodeRequests (evs : List Ev) : List CandidateNode :=
  evs.filterMap (fun e =>
    match e with
    | .getWriter (some n) _ => some n
    | _ => none)

/-- The bytes the encoder produces for a node's leading content (empty when
it fails). -/
def encLeading (env : PrinterEnv) (n : CandidateNode) : Bytes :=
  ((env.encoder.printLeadingContent n.LeadingContent).toOption).getD []

/-- The bytes the encoder produces for the node value itself. -/
def encNode (env : PrinterEnv) (n : CandidateNode) : Bytes :=
  ((env.encoder.encode n).toOption).getD []

/-- The encoder's document-separator bytes. -/
def sepBytesOf (env : PrinterEnv) : Bytes :=
  (env.encoder.printDocumentSeparator.toOption).getD []

/-- The buffered record of a node in NUL mode: leading content plus encoded
value with one trailing line terminator removed. -/
def recordOf (env : PrinterEnv) (n : CandidateNode) : Bytes :=
  removeLastEOL (encLeading env n ++ encNode env n)

/-- Pure record framing: each record followed by exactly one NUL byte and
nothing else. This is the inter-record layout the spec asserts for
NUL-separated mode. -/
def nulRecords (recs : List Bytes) : Bytes :=
  (recs.map (fun r => r ++ [0])).flatten

/-- Specification count of separator boundaries along a walk that starts
from primed tracked indices: a boundary is a node whose (document, file)
indices differ from the tracked pair and whose leading content does not
start with the sentinel; the tracked document index follows each node, the
tracked file index never changes. -/
def sepCountSpec : Nat → Int → List CandidateNode → Nat
  | _, _, [] => 0
  | pd, pf, n :: rest =>
    (if boundary pd pf n then 1 else 0) + sepCountSpec n.GetDocument pf rest

/-- Specification of the single-sink byte stream in NUL-separated mode:
for each node, the encoder's separator bytes when a boundary is crossed,
then the stripped record, then one NUL byte. -/
def nulOutputSpec (env : PrinterEnv) : Nat → Int → List CandidateNode → Bytes
  | _, _, [] => []
  | pd, pf, n :: rest =>
    (if boundary pd pf n then sepBytesOf env else []) ++
      recordOf env n ++ 0 :: nulOutputSpec env n.GetDocument pf rest

/-- The document index of the last node of a walk, or the starting index
when the walk is empty. -/
def lastDoc (d : Nat) : List CandidateNode → Nat
  | [] => d
  | n :: rest => lastDoc n.GetDocument rest

/-- String contents as byte-sized naturals (ASCII payloads in tests). -/
def strToBytes (t : String) : Bytes := t.data.map Char.toNat

/- Concrete collaborators and inputs used by counterexamples and witnesses. -/

/-- A YAML-like test encoder: value plus newline, "---" plus newline as the
document separator, leading content verbatim. -/
def encC3 : Encoder :=
  { canHandleAliases := true
    encode := fun n => Except.ok (strToBytes n.Value ++ [10])
    printDocumentSeparator := Except.ok [45, 45, 45, 10]
    printLeadingContent := fun t => Except.ok (strToBytes t) }

/-- Test environment: the test encoder, everything routed to sink 0, the
identity explode. -/
def envC3 : PrinterEnv :=
  { encoder := encC3
    getWriter := fun _ => Except.ok 0
    explode := fun ns => Except.ok ns }

/-- Fresh printer state with NUL-separated output enabled and no appendix. -/
def sC3 : PrinterState :=
  { firstTimePrinting := true, previousDocIndex := 0, previousFileIndex := 0,
    printedMatches := false, nulSepOutput := true, appendixReader := none }

/-- A scalar node of document 0, file 0. -/
def nA : CandidateNode := ⟨"!!str", "a", "", 0, 0⟩

/-- A scalar node of document 1, file 0. -/
def nB : CandidateNode := ⟨"!!str", "b", "", 1, 0⟩

/-- A null-tagged node. -/
def nNull : CandidateNode := ⟨"!!null", "null", "", 0, 0⟩

/-- A boolean node with literal value false. -/
def nFalse : CandidateNode := ⟨"!!bool", "false", "", 0, 0⟩

/-- Fresh state with a pending three-byte appendix. -/
def sC2 : PrinterState := { sC3 with appendixReader := some [1, 2, 3] }

/-- Encoder whose encoded value contains an embedded NUL byte. -/
def encC4 : Encoder :=
  { canHandleAliases := true
    encode := fun _ => Except.ok [0]
    printDocumentSeparator := Except.ok [45]
    printLeadingContent := fun _ => Except.ok [] }

/-- Environment around the NUL-producing encoder. -/
def envC4 : PrinterEnv :=
  { encoder := encC4
    getWriter := fun _ => Except.ok 0
    explode := fun ns => Except.ok ns }

/-- Encoder whose rendered text is "value" followed by CRLF. -/
def encC5 : Encoder :=
  { canHandleAliases := true
    encode := fun _ => Except.ok [118, 97, 108, 117, 101, 13, 10]
    printDocumentSeparator := Except.ok []
    printLeadingContent := fun _ => Except.ok [] }

/-- Environment around the CRLF encoder. -/
def envC5 : PrinterEnv :=
  { encoder := encC5
    getWriter := fun _ => Except.ok 0
    explode := fun ns => Except.ok ns }

/-- Environment whose encoder cannot handle aliases and whose explode
rewrites the whole sequence to the single node nB. -/
def envC7 : PrinterEnv :=
  { encoder := { encC3 with canHandleAliases := false }
    getWriter := fun _ => Except.ok 0
    explode := fun _ => Except.ok [nB] }

/-- Environment whose encoder cannot handle aliases and whose explode
fails. -/
def envC7e : PrinterEnv :=
  { encoder := { encC3 with canHandleAliases := false }
    getWriter := fun _ => Except.ok 0
    explode := fun _ => Except.error "explode failed" }

/-- The last element of a non-empty list is what getD at index length-1
returns. -/
theorem getD_last {xs : Bytes} {c : Nat} (h : xs.getLast? = some c) :
    xs.getD (xs.length - 1) 0 = c := by
  rw [List.getD_eq_getElem?_getD, ← List.getLast?_eq_getElem?, h]
  rfl

/-- A buffer ending in CRLF loses exactly that pair. -/
theorem removeLastEOL_crlf (xs : Bytes) : removeLastEOL (xs ++ [13, 10]) = xs := by
  have hl : (xs ++ [13, 10]).length = xs.length + 2 := by simp
  have h2 : (xs ++ [13, 10]).length - 2 = xs.length := by omega
  have h1 : (xs ++ [13, 10]).length - 1 = xs.length + 1 := by omega
  have ha : (xs ++ [13, 10]).getD xs.length 0 = 13 := by
    rw [List.getD_eq_getElem?_getD, List.getElem?_append_right (Nat.le_refl _)]
    simp
  have hb : (xs ++ [13, 10]).getD (xs.length + 1) 0 = 10 := by
    rw [List.getD_eq_getElem?_getD, List.getElem?_append_right (by omega)]
    have hx : xs.length + 1 - xs.length = 1 := by omega
    rw [hx]
    rfl
  unfold removeLastEOL
  rw [if_pos ⟨by omega, by rw [h2]; exact ha, by rw [h1]; exact hb⟩, h2]
  exact List.take_left' rfl

/-- A buffer ending in a lone CR loses exactly that byte. -/
theorem removeLastEOL_cr (xs : Bytes) : removeLastEOL (xs ++ [13]) = xs := by
  have hl : (xs ++ [13]).length = xs.length + 1 := by simp
  have h1 : (xs ++ [13]).length - 1 = xs.length := by omega
  have ha : (xs ++ [13]).getD xs.length 0 = 13 := by
    rw [List.getD_eq_getElem?_getD, List.getElem?_append_right (Nat.le_refl _)]
    simp
  have hneg : ¬(2 ≤ (xs ++ [13]).length ∧
      (xs ++ [13]).getD ((xs ++ [13]).length - 2) 0 = 13 ∧
      (xs ++ [13]).getD ((xs ++ [13]).length - 1) 0 = 10) := by
    rintro ⟨-, -, hC⟩
    rw [h1, ha] at hC
    omega
  unfold removeLastEOL
  rw [if_neg hneg, if_pos ⟨by omega, Or.inl (by rw [h1]; exact ha)⟩, h1]
  exact List.take_left' rfl

/-- A buffer ending in LF not preceded by CR loses exactly the LF. -/
theorem removeLastEOL_lf (xs : Bytes) (c : Nat) (hc : xs.getLast? = some c)
    (h13 : c ≠ 13) : removeLastEOL (xs ++ [10]) = xs := by
  have hne : xs ≠ [] := by
    intro h
    rw [h] at hc
    cases hc
  have hxl : 1 ≤ xs.length := List.length_pos.mpr hne
  have hl : (xs ++ [10]).length = xs.length + 1 := by simp
  have h1 : (xs ++ [10]).length - 1 = xs.length := by omega
  have h2 : (xs ++ [10]).length - 2 = xs.length - 1 := by omega
  have ha : (xs ++ [10]).getD xs.length 0 = 10 := by
    rw [List.getD_eq_getElem?_getD, List.getElem?_append_right (Nat.le_refl _)]
    simp
  have hprev : (xs ++ [10]).getD (xs.length - 1) 0 = c := by
    rw [List.getD_eq_getElem?_getD, List.getElem?_append_left (by omega),
      ← List.getD_eq_getElem?_getD]
    exact getD_last hc
  have hneg : ¬(2 ≤ (xs ++ [10]).length ∧
      (xs ++ [10]).getD ((xs ++ [10]).length - 2) 0 = 13 ∧
      (xs ++ [10]).getD ((xs ++ [10]).length - 1) 0 = 10) := by
    rintro ⟨-, hB, -⟩
    rw [h2, hprev] at hB
    exact h13 hB
  unfold removeLastEOL
  rw [if_neg hneg, if_pos ⟨by omega, Or.inr (by rw [h1]; exact ha)⟩, h1]
  exact List.take_left' rfl

/-- A buffer not ending in CR or LF is kept unchanged. -/
theorem removeLastEOL_keep (b : Bytes) (c : Nat) (hc : b.getLast? = some c)
    (h13 : c ≠ 13) (h10 : c ≠ 10) : removeLastEOL b = b := by
  have hlast : b.getD (b.length - 1) 0 = c := getD_last hc
  have hneg1 : ¬(2 ≤ b.length ∧ b.getD (b.length - 2) 0 = 13 ∧
      b.getD (b.length - 1) 0 = 10) := by
    rintro ⟨-, -, hC⟩
    rw [hlast] at hC
    exact h10 hC
  have hneg2 : ¬(1 ≤ b.length ∧
      (b.getD (b.length - 1) 0 = 13 ∨ b.getD (b.length - 1) 0 = 10)) := by
    rintro ⟨-, hB | hB⟩
    · rw [hlast] at hB
      exact h13 hB
    · rw [hlast] at hB
      exact h10 hB
  unfold removeLastEOL
  rw [if_neg hneg1, if_neg hneg2]

/-- Inversion of a successful processNode: the resulting state and the
exact event list. -/
theorem processNode_ok {env : PrinterEnv} {s s' : PrinterState} {n : CandidateNode}
    {evs : List Ev} (h : processNode env s n = (none, s', evs)) :
    s' = { s with printedMatches := s.printedMatches || countsAsPrinted n,
                  previousDocIndex := n.GetDocument }
    ∧ ∃ w, env.getWriter (some n) = Except.ok w ∧
        evs = Ev.getWriter (some n) w ::
          ((if needsSeparator s n then [Ev.sep w (sepBytesOf env)] else []) ++
           (if s.nulSepOutput then [Ev.write w (recordOf env n), Ev.write w [0]]
            else [Ev.write w (encLeading env n), Ev.write w (encNode env n)])) := by
  unfold processNode at h
  split at h
  · exact absurd h (by simp)
  rename_i w hw
  split at h
  · exact absurd h (by simp)
  rename_i sevs hsep
  split at h
  · exact absurd h (by simp)
  rename_i lb hlb
  split at h
  · exact absurd h (by simp)
  rename_i nb hnb
  have hsevs : sevs = if needsSeparator s n then [Ev.sep w (sepBytesOf env)] else [] := by
    by_cases hcond : needsSeparator s n = true
    · rw [if_pos hcond] at hsep
      rw [if_pos hcond]
      split at hsep
      · exact absurd hsep (by simp)
      rename_i sb hsb
      simp only [Except.ok.injEq] at hsep
      rw [← hsep]
      simp [sepBytesOf, hsb, Except.toOption]
    · rw [if_neg hcond] at hsep
      rw [if_neg hcond]
      simp only [Except.ok.injEq] at hsep
      rw [← hsep]
  split at h
  · rename_i hnul
    split at h
    · exact absurd h (by simp)
    rename_i hz
    simp only [Prod.mk.injEq, true_and] at h
    obtain ⟨hs, hevs⟩ := h
    subst hs hevs
    refine ⟨rfl, w, hw, ?_⟩
    rw [if_pos hnul, hsevs]
    simp [recordOf, encLeading, encNode, Except.toOption, hlb, hnb]
  · rename_i hnul
    simp only [Prod.mk.injEq, true_and] at h
    obtain ⟨hs, hevs⟩ := h
    subst hs hevs
    refine ⟨rfl, w, hw, ?_⟩
    rw [if_neg hnul, hsevs]
    simp [encLeading, encNode, Except.toOption, hlb, hnb]

/-- Invariants of a successful run of the PrintResults loop: state fields
other than the tracked document index and the printed flag are untouched,
the printed flag accumulates exactly the non-null non-false nodes, the
tracked document index follows the last node, separator emissions match the
boundary count, and a sink is requested for exactly the processed nodes in
order. -/
theorem runNodes_ok {env : PrinterEnv} (ms : List CandidateNode) :
    ∀ {s s' : PrinterState} {evs : List Ev}, runNodes env s ms = (none, s', evs) →
      s'.previousFileIndex = s.previousFileIndex ∧
      s'.firstTimePrinting = s.firstTimePrinting ∧
      s'.nulSepOutput = s.nulSepOutput ∧
      s'.appendixReader = s.appendixReader ∧
      s'.printedMatches = (s.printedMatches || ms.any countsAsPrinted) ∧
      s'.previousDocIndex = lastDoc s.previousDocIndex ms ∧
      sepEvents evs = sepCountSpec s.previousDocIndex s.previousFileIndex ms ∧
      nodeRequests evs = ms := by
  induction ms with
  | nil =>
    intro s s' evs h
    simp only [runNodes, Prod.mk.injEq, true_and] at h
    obtain ⟨h1, h2⟩ := h
    subst h1 h2
    simp [lastDoc, sepCountSpec, sepEvents, nodeRequests]
  | cons n rest ih =>
    intro s s' evs h
    unfold runNodes at h
    split at h
    · exact absurd h (by simp)
    rename_i s1 evs1 hpn
    split at h
    rename_i r s2 evs2 hrn
    simp only [Prod.mk.injEq] at h
    obtain ⟨hr, hs2, hevs⟩ := h
    subst hr hs2 hevs
    obtain ⟨hs1, w, hw, hevs1⟩ := processNode_ok hpn
    obtain ⟨i1, i2, i3, i4, i5, i6, i7, i8⟩ := ih hrn
    subst hs1
    simp only at i1 i2 i3 i4 i5 i6 i7 i8
    refine ⟨i1, i2, i3, i4, ?_, ?_, ?_, ?_⟩
    · rw [i5]
      simp [Bool.or_assoc]
    · rw [i6]
      rfl
    · have happ : sepEvents (evs1 ++ evs2) = sepEvents evs1 + sepEvents evs2 :=
        List.countP_append _ _ _
      rw [happ, i7, hevs1,
        show sepCountSpec s.previousDocIndex s.previousFileIndex (n :: rest)
          = (if boundary s.previousDocIndex s.previousFileIndex n then 1 else 0)
            + sepCountSpec n.GetDocument s.previousFileIndex rest from rfl,
        show (boundary s.previousDocIndex s.previousFileIndex n) = needsSeparator s n from rfl]
      cases hb : needsSeparator s n <;> cases hnul : s.nulSepOutput <;>
        simp [sepEvents, List.countP_cons, List.countP_append, Ev.isSep]
    · have happ : nodeRequests (evs1 ++ evs2) = nodeRequests evs1 ++ nodeRequests evs2 :=
        List.filterMap_append _ _ _
      rw [happ, i8, hevs1]
      cases hb : needsSeparator s n <;> cases hnul : s.nulSepOutput <;>
        simp [nodeRequests]

/-- A successful appendix stage preserves all printer state except the
appendix reader, adds no separator emissions and no node sink requests,
and is the identity when no appendix is registered. -/
theorem pipeAppendix_ok {env : PrinterEnv} {s s' : PrinterState} {evs0 evs : List Ev}
    (h : pipeAppendix env s evs0 = (none, s', evs)) :
    s'.previousDocIndex = s.previousDocIndex ∧
    s'.previousFileIndex = s.previousFileIndex ∧
    s'.firstTimePrinting = s.firstTimePrinting ∧
    s'.printedMatches = s.printedMatches ∧
    s'.nulSepOutput = s.nulSepOutput ∧
    sepEvents evs = sepEvents evs0 ∧
    nodeRequests evs = nodeRequests evs0 ∧
    (s.appendixReader = none → s' = s ∧ evs = evs0) := by
  unfold pipeAppendix at h
  split at h
  · simp only [Prod.mk.injEq, true_and] at h
    obtain ⟨h1, h2⟩ := h
    subst h1 h2
    exact ⟨rfl, rfl, rfl, rfl, rfl, rfl, rfl, fun _ => ⟨rfl, rfl⟩⟩
  · rename_i bs hsome
    split at h
    · exact absurd h (by simp)
    rename_i w hw
    simp only [Prod.mk.injEq, true_and] at h
    obtain ⟨h1, h2⟩ := h
    subst h1 h2
    refine ⟨rfl, rfl, rfl, rfl, rfl, ?_, ?_, ?_⟩
    · simp [sepEvents, List.countP_append, List.countP_cons, Ev.isSep]
    · simp [nodeRequests, List.filterMap_append]
    · intro hc
      rw [hsome] at hc
      cases hc

/-- A successful run of loop plus appendix decomposes into a successful
loop followed by a successful appendix stage. -/
theorem runAfterPrime_ok {env : PrinterEnv} {s s' : PrinterState} {ms : List CandidateNode}
    {evs : List Ev} (h : runAfterPrime env s ms = (none, s', evs)) :
    ∃ s2 evs2, runNodes env s ms = (none, s2, evs2) ∧
      pipeAppendix env s2 evs2 = (none, s', evs) := by
  unfold runAfterPrime at h
  split at h
  · exact absurd h (by simp)
  rename_i s1 evs1 hrn
  exact ⟨s1, evs1, hrn, h⟩

/-- On a first-ever call with a non-empty effective sequence, PrintResults
primes the tracked indices from the front node and runs the loop and the
appendix stage. -/
theorem printResults_firstTime {env : PrinterEnv} {s : PrinterState} {ns : List CandidateNode}
    {m : CandidateNode} {tl : List CandidateNode} (hne : ns ≠ [])
    (hms : effectiveNodes env ns = Except.ok (m :: tl)) (hf : s.firstTimePrinting = true) :
    printResults env s ns =
      runAfterPrime env
        { s with previousDocIndex := m.GetDocument, previousFileIndex := m.GetFileIndex,
                 firstTimePrinting := false } (m :: tl) := by
  unfold printResults
  rw [if_neg (by simpa using hne), hms]
  simp [hf]

/-- On a later call, PrintResults runs the loop directly on the effective
sequence with the state carried over. -/
theorem printResults_notFirst {env : PrinterEnv} {s : PrinterState} {ns ms : List CandidateNode}
    (hne : ns ≠ []) (hms : effectiveNodes env ns = Except.ok ms)
    (hf : s.firstTimePrinting = false) :
    printResults env s ns = runAfterPrime env s ms := by
  unfold printResults
  rw [if_neg (by simpa using hne), hms]
  simp [hf]

/-- Single-sink NUL-mode runs produce exactly the specified byte stream:
separator bytes at boundaries, then the stripped record, then one NUL, per
node. -/
theorem runNodes_nul {env : PrinterEnv} (hsink : ∀ x, env.getWriter x = Except.ok 0)
    (ms : List CandidateNode) :
    ∀ {s s' : PrinterState} {evs : List Ev}, s.nulSepOutput = true →
      runNodes env s ms = (none, s', evs) →
      sinkBytes 0 evs = nulOutputSpec env s.previousDocIndex s.previousFileIndex ms := by
  induction ms with
  | nil =>
    intro s s' evs hnul h
    simp only [runNodes, Prod.mk.injEq, true_and] at h
    obtain ⟨h1, h2⟩ := h
    subst h2
    simp [sinkBytes, nulOutputSpec]
  | cons n rest ih =>
    intro s s' evs hnul h
    unfold runNodes at h
    split at h
    · exact absurd h (by simp)
    rename_i s1 evs1 hpn
    split at h
    rename_i r s2 evs2 hrn
    simp only [Prod.mk.injEq] at h
    obtain ⟨hr, hs2, hevs⟩ := h
    subst hr hevs
    obtain ⟨hs1, w, hw, hevs1⟩ := processNode_ok hpn
    have h0 := hsink (some n)
    rw [h0] at hw
    simp only [Except.ok.injEq] at hw
    subst hw
    subst hs1
    have hih := ih (by simpa using hnul) hrn
    simp only at hih
    have happ : ∀ a b : List Ev, sinkBytes 0 (a ++ b) = sinkBytes 0 a ++ sinkBytes 0 b := by
      intro a b
      simp [sinkBytes]
    rw [hevs1, happ, hih]
    cases hb : needsSeparator s n <;>
      simp [sinkBytes, Ev.sinkContrib, nulOutputSpec, hnul, hb,
        show (boundary s.previousDocIndex s.previousFileIndex n) = needsSeparator s n from rfl]

/-- Claim C1: for every non-empty match sequence routed to a single sink and
processed by a successful first-ever PrintResults call, the number of
document-separator emissions equals the number of (document index, file
index) transitions encountered during the walk, excluding the implicit
initial document (the first node primes the tracked indices and emits no
separator) and excluding boundaries whose node leading content starts with
the sentinel. -/
theorem c1_separator_count (env : PrinterEnv) (s : PrinterState) (ns : List CandidateNode)
    (m : CandidateNode) (tl : List CandidateNode) (s' : PrinterState) (evs : List Ev)
    (hsink : ∀ x, env.getWriter x = Except.ok 0) (hne : ns ≠ [])
    (hms : effectiveNodes env ns = Except.ok (m :: tl))
    (hf : s.firstTimePrinting = true)
    (hrun : printResults env s ns = (none, s', evs)) :
    sepEvents evs = sepCountSpec m.GetDocument m.GetFileIndex (m :: tl) := by
  rw [printResults_firstTime hne hms hf] at hrun
  obtain ⟨s2, evs2, hrn, hpa⟩ := runAfterPrime_ok hrun
  obtain ⟨-, -, -, -, -, -, h7, -⟩ := runNodes_ok (m :: tl) hrn
  obtain ⟨-, -, -, -, -, hse, -, -⟩ := pipeAppendix_ok hpa
  rw [hse, h7]

/-- Claim C1 witness: a concrete two-document run has exactly the one
separator the specification count predicts. -/
theorem c1_witness :
    sepEvents (printResults envC3 sC3 [nA, nB]).2.2 =
      sepCountSpec nA.GetDocument nA.GetFileIndex [nA, nB] :=
  c1_separator_count envC3 sC3 [nA, nB] nA [nB]
    (printResults envC3 sC3 [nA, nB]).2.1 (printResults envC3 sC3 [nA, nB]).2.2
    (fun _ => rfl) (by decide) rfl rfl (by decide)

/-- Claim C2 counterexample: with empty matches and a pending non-empty
appendix, printResults returns success having produced no events at all, so
the appendix bytes are not piped to any sink. -/
theorem c2_counterexample :
    sC2.appendixReader = some [1, 2, 3] ∧
    printResults envC3 sC2 [] = (none, sC2, []) :=
  ⟨rfl, rfl⟩

/-- Claim C2 (amended): a printResults call with an empty match sequence
returns success immediately, leaving the state (including any registered
appendix source) untouched and producing no output events, so the appendix
is not piped on such a call. -/
theorem c2_empty_no_op (env : PrinterEnv) (s : PrinterState) :
    printResults env s [] = (none, s, []) := by
  simp [printResults]

/-- Claim C3 counterexample: in NUL-separated mode a successful run over a
document boundary interleaves the encoder separator bytes between the
NUL-terminated records, so the sink stream is not records-plus-NUL only. -/
theorem c3_counterexample :
    (printResults envC3 sC3 [nA, nB]).1 = none ∧
    sinkBytes 0 (printResults envC3 sC3 [nA, nB]).2.2 = [97, 0, 45, 45, 45, 10, 98, 0] ∧
    sinkBytes 0 (printResults envC3 sC3 [nA, nB]).2.2 ≠
      nulRecords [recordOf envC3 nA, recordOf envC3 nB] := by
  decide

/-- Claim C3 (amended): in NUL-separated mode the single sink receives, per
node in order, the encoder document-separator bytes when a boundary is
crossed, then the buffered record with at most one trailing line terminator
removed, then exactly one NUL byte. -/
theorem c3_nul_stream (env : PrinterEnv) (s : PrinterState) (ns : List CandidateNode)
    (m : CandidateNode) (tl : List CandidateNode) (s' : PrinterState) (evs : List Ev)
    (hsink : ∀ x, env.getWriter x = Except.ok 0)
    (hnul : s.nulSepOutput = true) (happ : s.appendixReader = none)
    (hne : ns ≠ []) (hms : effectiveNodes env ns = Except.ok (m :: tl))
    (hf : s.firstTimePrinting = true)
    (hrun : printResults env s ns = (none, s', evs)) :
    sinkBytes 0 evs = nulOutputSpec env m.GetDocument m.GetFileIndex (m :: tl) := by
  rw [printResults_firstTime hne hms hf] at hrun
  obtain ⟨s2, evs2, hrn, hpa⟩ := runAfterPrime_ok hrun
  obtain ⟨-, -, -, i4, -, -, -, -⟩ := runNodes_ok (m :: tl) hrn
  have happ2 : s2.appendixReader = none := by
    rw [i4]
    simpa using happ
  obtain ⟨-, -, -, -, -, -, -, hid⟩ := pipeAppendix_ok hpa
  obtain ⟨-, hevs⟩ := hid happ2
  rw [hevs]
  exact runNodes_nul hsink (m :: tl) (by simpa using hnul) hrn

/-- Claim C3 witness: the concrete two-document NUL-mode run matches the
amended stream specification. -/
theorem c3_witness :
    sinkBytes 0 (printResults envC3 sC3 [nA, nB]).2.2 =
      nulOutputSpec envC3 nA.GetDocument nA.GetFileIndex [nA, nB] :=
  c3_nul_stream envC3 sC3 [nA, nB] nA [nB]
    (printResults envC3 sC3 [nA, nB]).2.1 (printResults envC3 sC3 [nA, nB]).2.2
    (fun _ => rfl) rfl rfl (by decide) rfl rfl (by decide)

/-- Claim C4: in NUL-separated mode a node whose buffered record contains an
embedded NUL byte makes the loop fail with the dedicated
data-representation-conflict error; no write event reaches the real sink for
that record, the remaining loop iterations are skipped, and a first-ever
PrintResults call whose front node is the offender propagates the same
error. -/
theorem c4_nul_conflict (env : PrinterEnv) (s : PrinterState) (n : CandidateNode)
    (w : Nat) (sb lb nb : Bytes) (rest : List CandidateNode)
    (hnul : s.nulSepOutput = true)
    (hw : env.getWriter (some n) = Except.ok w)
    (hsb : env.encoder.printDocumentSeparator = Except.ok sb)
    (hlb : env.encoder.printLeadingContent n.LeadingContent = Except.ok lb)
    (hnb : env.encoder.encode n = Except.ok nb)
    (hz : (removeLastEOL (lb ++ nb)).contains 0 = true) :
    runNodes env s (n :: rest) =
      (some nulSepError,
       { s with printedMatches := s.printedMatches || countsAsPrinted n },
       Ev.getWriter (some n) w :: (if needsSeparator s n then [Ev.sep w sb] else [])) ∧
    (∀ e ∈ Ev.getWriter (some n) w :: (if needsSeparator s n then [Ev.sep w sb] else []),
      e.isWrite = false) ∧
    (∀ (s0 : PrinterState) (ns : List CandidateNode), s0.firstTimePrinting = true →
      s0.nulSepOutput = true → ns ≠ [] → effectiveNodes env ns = Except.ok (n :: rest) →
      printResults env s0 ns =
        (some nulSepError,
         { s0 with previousDocIndex := n.GetDocument, previousFileIndex := n.GetFileIndex,
                   firstTimePrinting := false,
                   printedMatches := s0.printedMatches || countsAsPrinted n },
         [Ev.getWriter (some n) w])) := by
  have hgen : ∀ t : PrinterState, t.nulSepOutput = true →
      processNode env t n =
        (some nulSepError, { t with printedMatches := t.printedMatches || countsAsPrinted n },
         Ev.getWriter (some n) w :: (if needsSeparator t n then [Ev.sep w sb] else [])) := by
    intro t htnul
    have hz2 : 0 ∈ removeLastEOL (lb ++ nb) := by simpa using hz
    cases hb : needsSeparator t n <;>
      simp [processNode, hw, hsb, hlb, hnb, htnul, hz2, hb]
  have hrunNodes : ∀ t : PrinterState, t.nulSepOutput = true →
      runNodes env t (n :: rest) =
        (some nulSepError, { t with printedMatches := t.printedMatches || countsAsPrinted n },
         Ev.getWriter (some n) w :: (if needsSeparator t n then [Ev.sep w sb] else [])) := by
    intro t htnul
    unfold runNodes
    rw [hgen t htnul]
  refine ⟨hrunNodes s hnul, ?_, ?_⟩
  · intro e he
    cases hb : needsSeparator s n <;> rw [hb] at he <;> simp at he
    · subst he
      rfl
    · rcases he with rfl | rfl <;> rfl
  · intro s0 ns hf h0nul hne hms
    rw [printResults_firstTime hne hms hf]
    unfold runAfterPrime
    rw [hrunNodes _ (by simpa using h0nul)]
    have hb : needsSeparator
        { s0 with previousDocIndex := n.GetDocument, previousFileIndex := n.GetFileIndex,
                  firstTimePrinting := false } n = false := by
      simp [needsSeparator, boundary]
    rw [hb]
    simp

/-- Claim C4 witness: the concrete NUL-containing record aborts the loop
with the dedicated error and only the sink request on record. -/
theorem c4_witness :
    runNodes envC4 sC3 [nA] =
      (some nulSepError,
       { sC3 with printedMatches := sC3.printedMatches || countsAsPrinted nA },
       Ev.getWriter (some nA) 0 :: (if needsSeparator sC3 nA then [Ev.sep 0 [45]] else [])) :=
  (c4_nul_conflict envC4 sC3 nA 0 [45] [] [0] [] rfl rfl rfl rfl rfl (by decide)).1

/-- Claim C5: NUL-mode record framing strips exactly one trailing line
terminator: a trailing CRLF pair, else one trailing CR or LF; buffers with
no trailing terminator are kept whole; and a successfully processed node in
NUL mode is emitted as its stripped record followed by exactly one NUL
byte. -/
theorem c5_record_framing :
    (∀ xs : Bytes, removeLastEOL (xs ++ [13, 10]) = xs) ∧
    (∀ xs : Bytes, removeLastEOL (xs ++ [13]) = xs) ∧
    (∀ (xs : Bytes) (c : Nat), xs.getLast? = some c → c ≠ 13 →
      removeLastEOL (xs ++ [10]) = xs) ∧
    (∀ (b : Bytes) (c : Nat), b.getLast? = some c → c ≠ 13 → c ≠ 10 →
      removeLastEOL b = b) ∧
    (∀ (env : PrinterEnv) (s : PrinterState) (n : CandidateNode) (w : Nat) (lb nb : Bytes),
      s.nulSepOutput = true → env.getWriter (some n) = Except.ok w →
      env.encoder.printLeadingContent n.LeadingContent = Except.ok lb →
      env.encoder.encode n = Except.ok nb → needsSeparator s n = false →
      (removeLastEOL (lb ++ nb)).contains 0 = false →
      processNode env s n =
        (none,
         { s with printedMatches := s.printedMatches || countsAsPrinted n,
                  previousDocIndex := n.GetDocument },
         [Ev.getWriter (some n) w, Ev.write w (removeLastEOL (lb ++ nb)), Ev.write w [0]])) := by
  refine ⟨removeLastEOL_crlf, removeLastEOL_cr, removeLastEOL_lf, removeLastEOL_keep, ?_⟩
  intro env s n w lb nb hnul hw hlb hnb hb hz
  have hz2 : 0 ∉ removeLastEOL (lb ++ nb) := by simpa using hz
  simp [processNode, hw, hlb, hnb, hnul, hb, hz2]

/-- Claim C5 witness: the record rendered as "value" plus CRLF is emitted as
"value" followed by one NUL byte. -/
theorem c5_witness :
    removeLastEOL ([118, 97, 108, 117, 101] ++ [13, 10]) = [118, 97, 108, 117, 101] ∧
    processNode envC5 sC3 nA =
      (none,
       { sC3 with printedMatches := sC3.printedMatches || countsAsPrinted nA,
                  previousDocIndex := nA.GetDocument },
       [Ev.getWriter (some nA) 0,
        Ev.write 0 (removeLastEOL ([] ++ [118, 97, 108, 117, 101, 13, 10])),
        Ev.write 0 [0]]) :=
  ⟨c5_record_framing.1 [118, 97, 108, 117, 101],
   c5_record_framing.2.2.2.2 envC5 sC3 nA 0 [] [118, 97, 108, 117, 101, 13, 10]
     rfl rfl rfl rfl (by decide) (by decide)⟩


/-- Claim C6: after a successful PrintResults call the printed-anything flag
equals its previous value or-ed with the presence of any processed node
that is neither null-tagged nor a boolean with literal value false; so it
stays false over sequences of only null or boolean-false nodes, becomes
true as soon as any other node is processed, and once true never reverts. -/
theorem c6_printed_anything (env : PrinterEnv) (s : PrinterState) (ns : List CandidateNode)
    (m : CandidateNode) (tl : List CandidateNode) (s' : PrinterState) (evs : List Ev)
    (hne : ns ≠ []) (hms : effectiveNodes env ns = Except.ok (m :: tl))
    (hrun : printResults env s ns = (none, s', evs)) :
    s'.printedMatches = (s.printedMatches || (m :: tl).any countsAsPrinted) ∧
    ∀ n : CandidateNode, countsAsPrinted n = false ↔
      (n.Tag = "!!null" ∨ (n.Tag = "!!bool" ∧ n.Value = "false")) := by
  constructor
  · cases hf : s.firstTimePrinting
    · rw [printResults_notFirst hne hms hf] at hrun
      obtain ⟨s2, evs2, hrn, hpa⟩ := runAfterPrime_ok hrun
      obtain ⟨-, -, -, -, i5, -, -, -⟩ := runNodes_ok (m :: tl) hrn
      obtain ⟨-, -, -, hpm, -, -, -, -⟩ := pipeAppendix_ok hpa
      rw [hpm, i5]
    · rw [printResults_firstTime hne hms hf] at hrun
      obtain ⟨s2, evs2, hrn, hpa⟩ := runAfterPrime_ok hrun
      obtain ⟨-, -, -, -, i5, -, -, -⟩ := runNodes_ok (m :: tl) hrn
      obtain ⟨-, -, -, hpm, -, -, -, -⟩ := pipeAppendix_ok hpa
      rw [hpm, i5]
  · intro n
    cases hx : (n.Tag == "!!null") <;> cases hy : (n.Tag == "!!bool") <;>
      cases hz : (n.Value == "false") <;>
      simp_all [countsAsPrinted, bne]

/-- Claim C6 witness: a run over a null node and a boolean-false node leaves
the printed-anything flag at its prior false value. -/
theorem c6_witness :
    (printResults envC3 sC3 [nNull, nFalse]).2.1.printedMatches =
      (sC3.printedMatches || [nNull, nFalse].any countsAsPrinted) :=
  (c6_printed_anything envC3 sC3 [nNull, nFalse] nNull [nFalse]
    (printResults envC3 sC3 [nNull, nFalse]).2.1
    (printResults envC3 sC3 [nNull, nFalse]).2.2
    (by decide) rfl (by decide)).1

/-- Claim C7: when the encoder cannot handle aliases, a failing explode
aborts PrintResults before any sink is obtained and before any output
event, returning the explode error with the state untouched; and on a
successful explode the loop requests sinks for exactly the exploded
sequence, never the original one. -/
theorem c7_explode_first (env : PrinterEnv) (s : PrinterState) (ns : List CandidateNode)
    (hcan : env.encoder.canHandleAliases = false) (hne : ns ≠ []) :
    (∀ e, env.explode ns = Except.error e → printResults env s ns = (some e, s, [])) ∧
    (∀ (m : CandidateNode) (tl : List CandidateNode) (s' : PrinterState) (evs : List Ev),
      env.explode ns = Except.ok (m :: tl) → printResults env s ns = (none, s', evs) →
      nodeRequests evs = m :: tl) := by
  constructor
  · intro e he
    unfold printResults
    rw [if_neg (by simpa using hne),
      show effectiveNodes env ns = Except.error e from by simp [effectiveNodes, hcan, he]]
  · intro m tl s' evs hex hrun
    have hms : effectiveNodes env ns = Except.ok (m :: tl) := by
      simp [effectiveNodes, hcan, hex]
    cases hf : s.firstTimePrinting
    · rw [printResults_notFirst hne hms hf] at hrun
      obtain ⟨s2, evs2, hrn, hpa⟩ := runAfterPrime_ok hrun
      obtain ⟨-, -, -, -, -, -, -, i8⟩ := runNodes_ok (m :: tl) hrn
      obtain ⟨-, -, -, -, -, -, hreq, -⟩ := pipeAppendix_ok hpa
      rw [hreq, i8]
    · rw [printResults_firstTime hne hms hf] at hrun
      obtain ⟨s2, evs2, hrn, hpa⟩ := runAfterPrime_ok hrun
      obtain ⟨-, -, -, -, -, -, -, i8⟩ := runNodes_ok (m :: tl) hrn
      obtain ⟨-, -, -, -, -, -, hreq, -⟩ := pipeAppendix_ok hpa
      rw [hreq, i8]

/-- Claim C7 witness: with an alias-incapable encoder the loop observes the
exploded node, not the original one. -/
theorem c7_witness :
    nodeRequests (printResults envC7 sC3 [nA]).2.2 = [nB] :=
  (c7_explode_first envC7 sC3 [nA] rfl (by decide)).2 nB []
    (printResults envC7 sC3 [nA]).2.1 (printResults envC7 sC3 [nA]).2.2
    rfl (by decide)

/-- Claim C8: over a successful PrintResults call the tracked document index
ends at the last processed node document index; the tracked file index is
set from the first node ever processed on a first-time call and is never
updated on later calls; and the first-time flag is false afterwards. -/
theorem c8_index_tracking (env : PrinterEnv) (s : PrinterState) (ns : List CandidateNode)
    (m : CandidateNode) (tl : List CandidateNode) (s' : PrinterState) (evs : List Ev)
    (hne : ns ≠ []) (hms : effectiveNodes env ns = Except.ok (m :: tl))
    (hrun : printResults env s ns = (none, s', evs)) :
    s'.previousDocIndex = lastDoc m.GetDocument tl ∧
    (s.firstTimePrinting = true → s'.previousFileIndex = m.GetFileIndex) ∧
    (s.firstTimePrinting = false → s'.previousFileIndex = s.previousFileIndex) ∧
    s'.firstTimePrinting = false := by
  cases hf : s.firstTimePrinting
  · rw [printResults_notFirst hne hms hf] at hrun
    obtain ⟨s2, evs2, hrn, hpa⟩ := runAfterPrime_ok hrun
    obtain ⟨i1, i2, -, -, -, i6, -, -⟩ := runNodes_ok (m :: tl) hrn
    obtain ⟨hpd, hpf, hft, -, -, -, -, -⟩ := pipeAppendix_ok hpa
    refine ⟨?_, ?_, ?_, ?_⟩
    · rw [hpd, i6]
      rfl
    · intro hcontr
      cases hcontr
    · intro _
      rw [hpf, i1]
    · rw [hft, i2, hf]
  · rw [printResults_firstTime hne hms hf] at hrun
    obtain ⟨s2, evs2, hrn, hpa⟩ := runAfterPrime_ok hrun
    obtain ⟨i1, i2, -, -, -, i6, -, -⟩ := runNodes_ok (m :: tl) hrn
    obtain ⟨hpd, hpf, hft, -, -, -, -, -⟩ := pipeAppendix_ok hpa
    refine ⟨?_, ?_, ?_, ?_⟩
    · rw [hpd, i6]
      rfl
    · intro _
      rw [hpf, i1]
    · intro hcontr
      cases hcontr
    · rw [hft, i2]

/-- Claim C8 witness: after the concrete two-node run the tracked document
index is that of the last node. -/
theorem c8_witness :
    (printResults envC3 sC3 [nA, nB]).2.1.previousDocIndex = lastDoc nA.GetDocument [nB] :=
  (c8_index_tracking envC3 sC3 [nA, nB] nA [nB]
    (printResults envC3 sC3 [nA, nB]).2.1 (printResults envC3 sC3 [nA, nB]).2.2
    (by decide) rfl (by decide)).1

/-- Claim C9: resolving any registered alias yields the same descriptor as
resolving the canonical name; a name matches a descriptor exactly when it
equals the formal name or occurs in the alias list (exact matching only);
and resolution succeeds with a descriptor exactly when that descriptor
matches and is the first matching one in declaration order. -/
theorem c9_resolution :
    (∀ f ∈ Formats, ∀ a ∈ f.Names,
      OutputFormatFromString a = OutputFormatFromString f.FormalName) ∧
    (∀ (f : PrinterOutputFormat) (name : String),
      f.MatchesName name = true ↔ (f.FormalName = name ∨ name ∈ f.Names)) ∧
    (∀ (name : String) (f : PrinterOutputFormat),
      OutputFormatFromString name = Except.ok f ↔
        (f.MatchesName name = true ∧ ∃ pre post, Formats = pre ++ f :: post ∧
          ∀ g ∈ pre, g.MatchesName name = false)) := by
  refine ⟨by decide, ?_, ?_⟩
  · intro f name
    simp [PrinterOutputFormat.MatchesName, List.contains, List.elem_iff, beq_iff_eq]
  · intro name f
    unfold OutputFormatFromString
    cases hfind : Formats.find? (fun g => g.MatchesName name) with
    | none =>
      simp only [List.find?_eq_none] at hfind
      constructor
      · intro h
        exact absurd h (by simp)
      · rintro ⟨hm, pre, post, heq, hpre⟩
        have hmem : f ∈ Formats := by
          rw [heq]
          simp
        exact absurd hm (by simpa using hfind f hmem)
    | some g =>
      simp only [Except.ok.injEq]
      constructor
      · intro h
        subst h
        obtain ⟨h1, pre, post, h2, h3⟩ := List.find?_eq_some.mp hfind
        exact ⟨h1, pre, post, h2, fun x hx => by simpa using h3 x hx⟩
      · rintro ⟨hm, pre, post, hEq, hpre⟩
        have h2 : Formats.find? (fun g => g.MatchesName name) = some f :=
          List.find?_eq_some.mpr ⟨hm, pre, post, hEq, fun a ha => by simpa using hpre a ha⟩
        rw [hfind] at h2
        simpa using h2

/-- Claim C9 witness: the alias "y" resolves to the same descriptor as the
canonical name "yaml". -/
theorem c9_witness :
    OutputFormatFromString "y" = OutputFormatFromString YamlOutputFormat.FormalName :=
  c9_resolution.1 YamlOutputFormat (by decide) "y" (by decide)

/-- Claim C10: resolving the empty string succeeds and yields the first
reserved slot in declaration order (index 6, the Base64 slot), whose formal
name is empty and whose encoder factory is absent; the unknown-format error
arises exactly for names matching no registered descriptor; and the
enumerated name list omits the reserved empty-named slots. -/
theorem c10_empty_name :
    OutputFormatFromString "" = Except.ok Base64OutputFormat ∧
    Formats.findIdx? (fun f => f.MatchesName "") = some 6 ∧
    Base64OutputFormat.FormalName = "" ∧
    Base64OutputFormat.EncoderFactory = none ∧
    (∀ name : String, OutputFormatFromString name = Except.error (unknownFormatError name) ↔
      ∀ f ∈ Formats, f.MatchesName name = false) ∧
    GetAvailableOutputFormatString = "yaml|y|json|j|props|p|csv|c|tsv|t|xml|x|toml|shell|s|lua|l" := by
  refine ⟨by decide, by decide, rfl, rfl, ?_, by decide⟩
  intro name
  unfold OutputFormatFromString
  cases hfind : Formats.find? (fun f => f.MatchesName name) with
  | none =>
    simp only [List.find?_eq_none] at hfind
    constructor
    · intro _ f hf
      simpa using hfind f hf
    · intro _
      rfl
  | some g =>
    constructor
    · intro h
      exact absurd h (by simp)
    · intro hall
      have hp := List.find?_some hfind
      have hmem := List.mem_of_find?_eq_some hfind
      rw [hall g hmem] at hp
      cases hp

/-- Claim C10 witness: a name matching no descriptor produces the
unknown-format error. -/
theorem c10_witness :
    OutputFormatFromString "bogus" = Except.error (unknownFormatError "bogus") :=
  (c10_empty_name.2.2.2.2.1 "bogus").mpr (by decide)

end YqPrinter
